import Mathlib

/-!
# Verification of `confluence_downloader.py`

Shallow embedding of the Confluence space exporter.  The remote API
(`atlassian.Confluence`, `requests`) and the local filesystem are modelled as
explicit oracle functions passed in; fallible remote calls return
`Except String _` (the `String` is the exception text `str(e)`).  The
`while True` pagination loop is embedded with a fuel parameter: `none` means
the loop did not finish within the given fuel; `some` is the value the Python
function returns.  `print` output is collected in order into a `List String`
log, and filesystem writes into explicit lists of `(path, content)` pairs.
The external `html2text.HTML2Text.handle` converter is an input function
`String → String` (it is third-party library code, not part of this
repository).
-/

/-- A page summary as returned by the page-listing API: the fields
`download_space` reads (`page['id']`, `page['title']`). -/
structure PageSummary where
  id : String
  title : String
deriving DecidableEq

/-- An attachment record as returned by `get_attachments_from_content`:
the fields `download_attachments` reads (`attachment['id']`,
`attachment['title']`). -/
structure AttachmentRef where
  id : String
  title : String
deriving DecidableEq

/-- One entry of the attachment manifest built at
`confluence_downloader.py:123-126`: `{'filename': .., 'path': ..}`. -/
structure ManifestEntry where
  filename : String
  path : String
deriving DecidableEq

/-- A faithful batch backend over a fixed page list: a request at offset
`start` with page size `limit` returns the slice
`allPages[start : start+limit]`, which is what a paginated listing endpoint
serves. -/
def batchServer (allPages : List PageSummary) (start limit : Nat) :
    Except String (List PageSummary) :=
  .ok ((allPages.drop start).take limit)

/-- The `while True` loop of `get_all_pages_in_space`
(`confluence_downloader.py:59-79`), with fuel.  Carries the running `pages`
accumulator and, for observability, the list of offsets requested so far.
Result: `(pages, requested offsets, error log)`.  A raised request error is
caught by the surrounding `try`/`except`, which prints and returns `[]`
(lines 77-79). -/
def pagesLoop (server : Nat → Nat → Except String (List PageSummary))
    (limit : Nat) (spaceKey : String) :
    Nat → Nat → List PageSummary → List Nat →
      Option (List PageSummary × List Nat × List String)
  | 0, _, _, _ => none
  | fuel + 1, start, acc, reqs =>
    match server start limit with
    | .error e =>
        some ([], reqs ++ [start],
          ["Error getting pages from space " ++ spaceKey ++ ": " ++ e])
    | .ok results =>
        if results = [] then some (acc, reqs ++ [start], [])
        else if results.length < limit then
          some (acc ++ results, reqs ++ [start], [])
        else
          pagesLoop server limit spaceKey fuel (start + limit)
            (acc ++ results) (reqs ++ [start])

/-- Embedding of `get_all_pages_in_space` (`confluence_downloader.py:45-79`): starts at
offset 0 with `limit = 100` and an empty accumulator. -/
def get_all_pages_in_space
    (server : Nat → Nat → Except String (List PageSummary))
    (spaceKey : String) (fuel : Nat) :
    Option (List PageSummary × List Nat × List String) :=
  pagesLoop server 100 spaceKey fuel 0 [] []

/-- Result of `download_attachments`: the returned manifest, the attachment
files written to disk (path, bytes), and the printed error messages. -/
structure AttachResult where
  manifest : List ManifestEntry
  written : List (String × List Nat)
  log : List String
deriving DecidableEq

/-- The `for attachment in attachments['results']` loop of
`download_attachments` (`confluence_downloader.py:100-129`).  `fetch` models
the `requests.get` + `raise_for_status` + chunked file write of one
attachment: on success the bytes land at `attachmentsDir/<filename>` and a
manifest entry `{filename, 'attachments/<filename>'}` is appended; on a
raised error the inner `except` prints and the loop continues. -/
def attachmentLoop (fetch : AttachmentRef → Except String (List Nat))
    (attachmentsDir : String) : List AttachmentRef → AttachResult
  | [] => ⟨[], [], []⟩
  | a :: rest =>
    match fetch a with
    | .ok bytes =>
        let r := attachmentLoop fetch attachmentsDir rest
        ⟨⟨a.title, "attachments/" ++ a.title⟩ :: r.manifest,
         (attachmentsDir ++ "/" ++ a.title, bytes) :: r.written, r.log⟩
    | .error e =>
        let r := attachmentLoop fetch attachmentsDir rest
        ⟨r.manifest, r.written,
         ("Error downloading attachment " ++ a.title ++ ": " ++ e) :: r.log⟩

/-- Embedding of `download_attachments` (`confluence_downloader.py:81-134`).  `listAtts`
models `get_attachments_from_content(page_id)['results']`; if it raises, the
outer `except` prints and the empty manifest accumulated so far is returned.
An empty result list returns early with an empty manifest (line 94-95);
otherwise the `attachments` subdirectory of `output_dir` is (idempotently)
created and the per-attachment loop runs. -/
def download_attachments (listAtts : Except String (List AttachmentRef))
    (fetch : AttachmentRef → Except String (List Nat))
    (pageId outputDir : String) : AttachResult :=
  match listAtts with
  | .error e =>
      ⟨[], [], ["Error getting attachments for page " ++ pageId ++ ": " ++ e]⟩
  | .ok atts =>
      if atts = [] then ⟨[], [], []⟩
      else attachmentLoop fetch (outputDir ++ "/attachments") atts

/-- Embedding of `convert_to_markdown` (`confluence_downloader.py:136-155`).  `handle` is
the configured `html2text` converter `self.html_converter.handle`.  If the
manifest is non-empty, a `## Attachments` section is appended with one
`- [filename](path)` line per entry, in order. -/
def convert_to_markdown (handle : String → String) (htmlContent : String)
    (attachments : List ManifestEntry) : String :=
  let markdownContent := handle htmlContent
  if attachments.isEmpty then markdownContent
  else
    attachments.foldl
      (fun acc a => acc ++ "- [" ++ a.filename ++ "](" ++ a.path ++ ")\n")
      (markdownContent ++ "\n\n## Attachments\n\n")

/-- The character filter of `confluence_downloader.py:190`:
`c.isalnum() or c in (' ', '-', '_')` (ASCII reading of `str.isalnum`). -/
def allowedChar (c : Char) : Bool :=
  c.isAlphanum || c = ' ' || c = '-' || c = '_'

/-- Python `str.rstrip()`: remove trailing whitespace. -/
def pyRstrip (s : String) : String :=
  String.mk ((s.data.reverse.dropWhile Char.isWhitespace).reverse)

/-- The sanitized filename stem of `confluence_downloader.py:190`:
`"".join(c for c in page_title if c.isalnum() or c in (' ', '-', '_')).rstrip()`. -/
def safe_title (pageTitle : String) : String :=
  pyRstrip (String.mk (pageTitle.data.filter allowedChar))

/-- The remote-API and filesystem environment of one
`ConfluenceDownloader`: everything `download_space` reaches through `self`
or the OS.  `listPagesApi` models `confluence.get_all_pages_from_space`,
`getBody` models `get_page_by_id(..)['body']['storage']['value']`,
`listAtts`/`fetchAtt` the attachment listing/downloading for a given page
id, `writeDoc` the `open(page_file, 'w').write(..)` call, and `handle` the
configured `html2text` converter. -/
structure Env where
  listPagesApi : Nat → Nat → Except String (List PageSummary)
  getBody : String → Except String String
  listAtts : String → Except String (List AttachmentRef)
  fetchAtt : String → AttachmentRef → Except String (List Nat)
  writeDoc : String → String → Except String Unit
  handle : String → String

/-- Outcome of processing one page: the document files written (zero or
one), the attachment files written, and the printed messages. -/
structure PageResult where
  docs : List (String × String)
  attWritten : List (String × List Nat)
  log : List String
deriving DecidableEq

/-- The body of the per-page `try` block of `download_space`
(`confluence_downloader.py:185-216`): fetch the body, download attachments
into `spaceDir`, convert, prepend the title heading, write
`spaceDir/<safe_title>.md`.  A raised error (body fetch or document write)
is caught at line 215-216: the message names the page title and the loop
moves on.  `download_attachments` itself never raises. -/
def processPage (env : Env) (spaceDir : String) (p : PageSummary) :
    PageResult :=
  let pageFile := spaceDir ++ "/" ++ safe_title p.title ++ ".md"
  match env.getBody p.id with
  | .error e => ⟨[], [], ["Error downloading page " ++ p.title ++ ": " ++ e]⟩
  | .ok body =>
    let ar := download_attachments (env.listAtts p.id) (env.fetchAtt p.id)
      p.id spaceDir
    let markdownContent := convert_to_markdown env.handle body ar.manifest
    let fullContent := "# " ++ p.title ++ "\n\n" ++ markdownContent
    match env.writeDoc pageFile fullContent with
    | .ok _ => ⟨[(pageFile, fullContent)], ar.written, ar.log⟩
    | .error e =>
        ⟨[], ar.written,
         ar.log ++ ["Error downloading page " ++ p.title ++ ": " ++ e]⟩

/-- The document path of one page (`confluence_downloader.py:190-191`):
`spaceDir/<safe_title>.md` — the `page_file` of `processPage`, restated for
use in theorem statements. -/
def pageDocPath (spaceDir : String) (p : PageSummary) : String :=
  spaceDir ++ "/" ++ safe_title p.title ++ ".md"

/-- The full document content of one page
(`confluence_downloader.py:199-209`): the title heading prepended to the
body converted with the page's attachment manifest — the `full_content` of
`processPage`, restated for use in theorem statements. -/
def pageDocContent (env : Env) (spaceDir : String) (p : PageSummary)
    (body : String) : String :=
  "# " ++ p.title ++ "\n\n"
    ++ convert_to_markdown env.handle body
        (download_attachments (env.listAtts p.id) (env.fetchAtt p.id) p.id
          spaceDir).manifest

/-- Outcome of a whole `download_space` run: document files written,
attachment files written, and the printed messages in order. -/
structure SpaceResult where
  written : List (String × String)
  attWritten : List (String × List Nat)
  log : List String
deriving DecidableEq

/-- Embedding of `download_space` (`confluence_downloader.py:157-218`).  The space
directory is `outputDir/spaceKey`; an empty page listing reports
"No pages found" and returns; otherwise every page is processed in order
and the run ends with the fixed completion message naming the output
location. -/
def download_space (env : Env) (spaceKey outputDir : String) (fuel : Nat) :
    Option SpaceResult :=
  let spaceDir := outputDir ++ "/" ++ spaceKey
  let fetchMsg := "Fetching pages from space " ++ spaceKey ++ "..."
  match get_all_pages_in_space env.listPagesApi spaceKey fuel with
  | none => none
  | some (pages, _reqs, elog) =>
    if pages = [] then
      some ⟨[], [],
        [fetchMsg] ++ elog ++ ["No pages found in space " ++ spaceKey]⟩
    else
      let results := pages.map (processPage env spaceDir)
      some ⟨(results.map PageResult.docs).flatten,
            (results.map PageResult.attWritten).flatten,
            [fetchMsg] ++ elog
              ++ ["Found " ++ toString pages.length
                    ++ " pages. Starting download..."]
              ++ (results.map PageResult.log).flatten
              ++ ["\nDownload completed! Content saved to: " ++ spaceDir]⟩

/-! ## Concrete test fixtures -/

/-- Three pages, titled A, B, C. -/
def pages3 : List PageSummary := [⟨"1", "A"⟩, ⟨"2", "B"⟩, ⟨"3", "C"⟩]

/-- Two pages, titled A and B. -/
def pages2 : List PageSummary := [⟨"1", "A"⟩, ⟨"2", "B"⟩]

/-- An environment in which everything succeeds: three pages, body "b",
no attachments, writes succeed, identity converter. -/
def envA : Env where
  listPagesApi := batchServer pages3
  getBody := fun _ => .ok "b"
  listAtts := fun _ => .ok []
  fetchAtt := fun _ _ => .error "unused"
  writeDoc := fun _ _ => .ok ()
  handle := id

/-- Like `envA`, except the body fetch for page "2" (title B) raises. -/
def envB : Env where
  listPagesApi := batchServer pages3
  getBody := fun pid => if pid = "2" then .error "boom" else .ok "b"
  listAtts := fun _ => .ok []
  fetchAtt := fun _ _ => .error "unused"
  writeDoc := fun _ _ => .ok ()
  handle := id

/-- Like `envA`, except writing the document file of page "2" (title B,
path `out/SP/B.md`) raises. -/
def envC : Env where
  listPagesApi := batchServer pages3
  getBody := fun _ => .ok "b"
  listAtts := fun _ => .ok []
  fetchAtt := fun _ _ => .error "unused"
  writeDoc := fun path _ =>
    if path = "out/SP/B.md" then .error "disk full" else .ok ()
  handle := id

/-- An environment whose very first page-listing request raises. -/
def envFail : Env where
  listPagesApi := fun _ _ => .error "conn refused"
  getBody := fun _ => .ok "b"
  listAtts := fun _ => .ok []
  fetchAtt := fun _ _ => .error "unused"
  writeDoc := fun _ _ => .ok ()
  handle := id

/-- An environment whose workspace has no pages at all. -/
def envEmpty : Env where
  listPagesApi := fun _ _ => .ok []
  getBody := fun _ => .ok "b"
  listAtts := fun _ => .ok []
  fetchAtt := fun _ _ => .error "unused"
  writeDoc := fun _ _ => .ok ()
  handle := id

/-- Two pages that each carry one attachment with the same display filename
"logo.png" but different bytes: page "1" yields bytes [1], page "2" yields
bytes [2, 2]. -/
def envDup : Env where
  listPagesApi := batchServer pages2
  getBody := fun _ => .ok "b"
  listAtts := fun pid => .ok [⟨"att" ++ pid, "logo.png"⟩]
  fetchAtt := fun pid _ => if pid = "1" then .ok [1] else .ok [2, 2]
  writeDoc := fun _ _ => .ok ()
  handle := id

/-- Like `envA` but with a completely different network and filesystem
behaviour; only the converter `handle` agrees with `envA`. -/
def envAltWorld : Env where
  listPagesApi := fun _ _ => .error "offline"
  getBody := fun _ => .error "offline"
  listAtts := fun _ => .error "offline"
  fetchAtt := fun _ _ => .error "offline"
  writeDoc := fun _ _ => .error "read-only fs"
  handle := id

/-- A listing backend that serves a full first batch of 100 pages and then
raises on the second request. -/
def flakyServer : Nat → Nat → Except String (List PageSummary) :=
  fun start _ =>
    if start = 0 then .ok (List.replicate 100 ⟨"p", "t"⟩) else .error "boom"

/-- The converter applied through an environment: `convert_to_markdown` as
reachable from a `ConfluenceDownloader` whose remote session and filesystem
are those of `env`.  The function body (`confluence_downloader.py:136-155`)
performs only string operations, so the environment is not consulted. -/
def convertWithEnv (env : Env) (htmlContent : String)
    (attachments : List ManifestEntry) : String :=
  convert_to_markdown env.handle htmlContent attachments

/-- Spec-worded rendering of the appended attachment index: one
`- [filename](path)` link line per manifest entry, in manifest order. -/
def attachmentLines : List ManifestEntry → String
  | [] => ""
  | a :: rest =>
      "- [" ++ a.filename ++ "](" ++ a.path ++ ")\n" ++ attachmentLines rest

/-- Spec-worded character retention (for comparison with the code's
`safe_title`): keep exactly the alphanumeric characters, spaces, hyphens,
and underscores. -/
def retainAllowedSpec : List Char → List Char
  | [] => []
  | c :: cs =>
      if c.isAlphanum || c = ' ' || c = '-' || c = '_' then
        c :: retainAllowedSpec cs
      else retainAllowedSpec cs

/-- Spec-worded trailing-whitespace trim (for comparison with the code's
`safe_title`): a character is kept unless it is whitespace and everything
after it trims away. -/
def trimTrailingWsSpec : List Char → List Char
  | [] => []
  | c :: cs =>
      let r := trimTrailingWsSpec cs
      if r = [] && c.isWhitespace then [] else c :: r

/-- Spec-worded sanitization: retain the allowed characters, then trim
trailing whitespace. -/
def sanitizeSpec (t : String) : String :=
  String.mk (trimTrailingWsSpec (retainAllowedSpec t.data))

/-! ## Theorems -/

/-- Helper: peeling the first offset off an arithmetic progression of
request offsets. -/
theorem range_map_mul_shift (s L k : Nat) :
    (List.range (k + 1)).map (fun i => s + i * L) =
      s :: (List.range k).map (fun i => s + L + i * L) := by
  rw [List.range_succ_eq_map]
  simp only [List.map_cons, List.map_map]
  refine congrArg₂ (· :: ·) (by simp) ?_
  apply List.map_congr_left
  intro i _
  simp only [Function.comp_apply, Nat.succ_mul]
  ring

/-- Helper: against a faithful batch backend over `P`, the pagination loop
started at any offset returns the remaining pages and requests exactly the
offsets `start, start+L, …, start + ((|P|-start)/L)·L`. -/
theorem pagesLoop_batchServer (P : List PageSummary) (L : Nat) (hL : 0 < L)
    (sk : String) (fuel : Nat) :
    ∀ (start : Nat) (acc : List PageSummary) (reqs : List Nat),
      (P.length - start) / L + 1 ≤ fuel →
      pagesLoop (batchServer P) L sk fuel start acc reqs =
        some (acc ++ P.drop start,
          reqs ++ (List.range ((P.length - start) / L + 1)).map
            (fun i => start + i * L),
          []) := by
  induction fuel with
  | zero =>
    intro start acc reqs h
    exact absurd h (Nat.not_succ_le_zero _)
  | succ n ih =>
    intro start acc reqs h
    by_cases hs : P.length ≤ start
    · have hd : P.drop start = [] := List.drop_eq_nil_of_le hs
      have hsub : P.length - start = 0 := by omega
      simp [pagesLoop, batchServer, hd, hsub, List.range_succ]
    · push_neg at hs
      have hlen : (P.drop start).length = P.length - start :=
        List.length_drop start P
      by_cases hshort : P.length - start < L
      · have htake : (P.drop start).take L = P.drop start :=
          List.take_of_length_le (by omega)
        have hne : ¬ P.drop start = [] := by
          intro hnil
          rw [hnil] at hlen
          simp at hlen
          omega
        have hdiv : (P.length - start) / L = 0 := Nat.div_eq_of_lt hshort
        simp [pagesLoop, batchServer, htake, hne, hlen, hshort, hdiv,
          List.range_succ]
      · push_neg at hshort
        have hlen2 : ((P.drop start).take L).length = L := by
          rw [List.length_take]
          omega
        have hne : ¬ (P.drop start).take L = [] := by
          intro hnil
          rw [hnil] at hlen2
          simp at hlen2
          omega
        have hnl : ¬ ((P.drop start).take L).length < L := by omega
        have hM : P.length - (start + L) = (P.length - start) - L := by omega
        have hquot : (P.length - start) / L = (P.length - (start + L)) / L + 1 := by
          rw [hM]
          rw [Nat.div_eq_sub_div hL hshort]
        have hfuel : (P.length - (start + L)) / L + 1 ≤ n := by omega
        rw [pagesLoop]
        simp only [batchServer]
        rw [if_neg hne, if_neg hnl]
        rw [ih (start + L) (acc ++ (P.drop start).take L) (reqs ++ [start]) hfuel]
        have hdropdrop : P.drop (start + L) = (P.drop start).drop L := by
          rw [List.drop_drop]
        have hpages : acc ++ (P.drop start).take L ++ P.drop (start + L) =
            acc ++ P.drop start := by
          rw [hdropdrop, List.append_assoc, List.take_append_drop]
        have hreqs : reqs ++ [start]
              ++ (List.range ((P.length - (start + L)) / L + 1)).map
                  (fun i => start + L + i * L) =
            reqs ++ (List.range ((P.length - start) / L + 1)).map
                  (fun i => start + i * L) := by
          conv_rhs => rw [hquot, range_map_mul_shift]
          simp [List.append_assoc]
        rw [hpages, hreqs]

/-- C1: against a backend serving `N` pages in fixed batches of size 100,
`get_all_pages_in_space` starts at offset 0, advances the offset by 100
after each batch, returns exactly the `N` pages in order, and terminates;
its requests are exactly the offsets `0, 100, …, (N/100)·100`, every batch
before the last is full, and the batch at the last requested offset is
empty or smaller than 100 — so no request is issued past the first
empty-or-short batch. -/
theorem listPages_pagination (allPages : List PageSummary) (spaceKey : String)
    (fuel : Nat) (h : allPages.length / 100 + 1 ≤ fuel) :
    get_all_pages_in_space (batchServer allPages) spaceKey fuel =
      some (allPages,
        (List.range (allPages.length / 100 + 1)).map (fun i => i * 100), [])
    ∧ (∀ i, i < allPages.length / 100 →
        ((allPages.drop (i * 100)).take 100).length = 100)
    ∧ ((allPages.drop (allPages.length / 100 * 100)).take 100).length < 100 := by
  refine ⟨?_, ?_, ?_⟩
  · have h0 := pagesLoop_batchServer allPages 100 (by omega) spaceKey fuel 0
      [] [] (by simpa using h)
    simpa using h0
  · intro i hi
    rw [List.length_take, List.length_drop]
    omega
  · rw [List.length_take, List.length_drop]
    omega

/-- Witness for C1 at the concrete three-page workspace `pages3`. -/
theorem listPages_pagination_witness :
    get_all_pages_in_space (batchServer pages3) "SP" 1 =
      some (pages3, [0], [])
    ∧ (∀ i, i < pages3.length / 100 →
        ((pages3.drop (i * 100)).take 100).length = 100)
    ∧ ((pages3.drop (pages3.length / 100 * 100)).take 100).length < 100 := by
  have h := listPages_pagination pages3 "SP" 1 (by decide)
  refine ⟨?_, h.2.1, h.2.2⟩
  have h1 := h.1
  simpa [pages3] using h1

/-- Helper: whenever the pagination loop ends with a non-empty error log
(i.e. a request raised), the returned page list is empty. -/
theorem pagesLoop_error_empty
    (server : Nat → Nat → Except String (List PageSummary))
    (L : Nat) (sk : String) (fuel : Nat) :
    ∀ (start : Nat) (acc : List PageSummary) (reqs : List Nat)
      (pages : List PageSummary) (rs : List Nat) (log : List String),
      pagesLoop server L sk fuel start acc reqs = some (pages, rs, log) →
      log ≠ [] → pages = [] := by
  induction fuel with
  | zero =>
    intro start acc reqs pages rs log h _
    simp [pagesLoop] at h
  | succ n ih =>
    intro start acc reqs pages rs log h hlog
    rw [pagesLoop] at h
    split at h
    · simp only [Option.some.injEq, Prod.mk.injEq] at h
      exact h.1.symm
    · split at h
      · simp only [Option.some.injEq, Prod.mk.injEq] at h
        exact absurd h.2.2.symm hlog
      · split at h
        · simp only [Option.some.injEq, Prod.mk.injEq] at h
          exact absurd h.2.2.symm hlog
        · exact ih _ _ _ _ _ _ h hlog

/-- C10: `get_all_pages_in_space` is atomic with respect to errors — in any
run whose error log is non-empty (a batch request raised, possibly after
earlier successful batches), the returned page list is `[]`: all previously
accumulated pages are discarded and a caller never observes a partial
listing. -/
theorem listPages_error_atomicity
    (server : Nat → Nat → Except String (List PageSummary))
    (sk : String) (fuel : Nat) (pages : List PageSummary) (reqs : List Nat)
    (log : List String)
    (h : get_all_pages_in_space server sk fuel = some (pages, reqs, log))
    (hlog : log ≠ []) : pages = [] :=
  pagesLoop_error_empty server 100 sk fuel 0 [] [] pages reqs log h hlog

/-- Witness for C10: `flakyServer` serves a full first batch of 100 pages
and raises on the second request; the run returns zero pages. -/
theorem listPages_error_atomicity_witness :
    get_all_pages_in_space flakyServer "SP" 3 =
      some ([], [0, 100], ["Error getting pages from space SP: boom"])
    ∧ ([] : List PageSummary) = [] := by
  refine ⟨by decide, ?_⟩
  exact listPages_error_atomicity flakyServer "SP" 3 [] [0, 100]
    ["Error getting pages from space SP: boom"] (by decide) (by decide)

/-- Helper: closed form of the per-attachment loop — the manifest collects
exactly the successful attachments, the disk writes exactly their bytes,
and the log exactly one message per failed attachment, all in input
order. -/
theorem attachmentLoop_spec (fetch : AttachmentRef → Except String (List Nat))
    (attachmentsDir : String) :
    ∀ atts : List AttachmentRef,
      attachmentLoop fetch attachmentsDir atts =
        ⟨atts.filterMap (fun a => match fetch a with
            | .ok _ => some ⟨a.title, "attachments/" ++ a.title⟩
            | .error _ => none),
         atts.filterMap (fun a => match fetch a with
            | .ok b => some (attachmentsDir ++ "/" ++ a.title, b)
            | .error _ => none),
         atts.filterMap (fun a => match fetch a with
            | .ok _ => none
            | .error e =>
                some ("Error downloading attachment " ++ a.title ++ ": " ++ e))⟩ := by
  intro atts
  induction atts with
  | nil => rfl
  | cons a rest ih =>
    cases hf : fetch a with
    | ok b => simp [attachmentLoop, List.filterMap_cons, hf, ih]
    | error e => simp [attachmentLoop, List.filterMap_cons, hf, ih]

/-- C3: when the attachment listing succeeds, `download_attachments` returns
a manifest containing exactly the attachments whose download succeeded, each
as `{filename, 'attachments/<filename>'}`, in the original input order, and
records one error message naming the filename for each failed attachment; a
failed attachment removes only itself — the remaining attachments are still
processed (and the function always returns normally, so the page is never
aborted). -/
theorem attachment_failure_isolation (atts : List AttachmentRef)
    (fetch : AttachmentRef → Except String (List Nat))
    (pageId outputDir : String) :
    (download_attachments (.ok atts) fetch pageId outputDir).manifest =
      atts.filterMap (fun a => match fetch a with
        | .ok _ => some ⟨a.title, "attachments/" ++ a.title⟩
        | .error _ => none)
    ∧ (download_attachments (.ok atts) fetch pageId outputDir).log =
      atts.filterMap (fun a => match fetch a with
        | .ok _ => none
        | .error e =>
            some ("Error downloading attachment " ++ a.title ++ ": " ++ e)) := by
  by_cases h : atts = []
  · subst h
    exact ⟨rfl, rfl⟩
  · constructor <;>
      simp [download_attachments, h, attachmentLoop_spec]

/-- Helper: the converter's accumulation loop appends exactly the rendered
link lines. -/
theorem foldl_attachmentLines (l : List ManifestEntry) :
    ∀ init : String,
      l.foldl
        (fun acc a => acc ++ "- [" ++ a.filename ++ "](" ++ a.path ++ ")\n")
        init = init ++ attachmentLines l := by
  induction l with
  | nil =>
    intro init
    simp [attachmentLines]
  | cons a rest ih =>
    intro init
    rw [List.foldl_cons, ih, attachmentLines]
    simp [String.append_assoc]

/-- C5: for every non-empty manifest, `convert_to_markdown` appends to the
converted body a trailing `## Attachments` section listing each entry as a
link — display name as link text, relative path as target, one per line,
in manifest order; for the single entry
`{filename: 'diagram.png', path: 'attachments/diagram.png'}` the appended
section is exactly the link line with text `diagram.png` and target
`attachments/diagram.png`. -/
theorem converter_appends_attachment_section (handle : String → String)
    (htmlContent : String) (attachments : List ManifestEntry)
    (h : attachments ≠ []) :
    convert_to_markdown handle htmlContent attachments =
      handle htmlContent ++ "\n\n## Attachments\n\n"
        ++ attachmentLines attachments
    ∧ convert_to_markdown handle htmlContent
        [⟨"diagram.png", "attachments/diagram.png"⟩] =
      handle htmlContent ++ "\n\n## Attachments\n\n"
        ++ "- [diagram.png](attachments/diagram.png)\n" := by
  constructor
  · obtain ⟨a, rest, rfl⟩ : ∃ a rest, attachments = a :: rest := by
      cases attachments with
      | nil => exact absurd rfl h
      | cons a rest => exact ⟨a, rest, rfl⟩
    simp only [convert_to_markdown, List.isEmpty_cons, Bool.false_eq_true,
      if_false]
    rw [foldl_attachmentLines]
  · have h2 : attachmentLines [⟨"diagram.png", "attachments/diagram.png"⟩] =
        "- [diagram.png](attachments/diagram.png)\n" := rfl
    simp only [convert_to_markdown, List.isEmpty_cons, Bool.false_eq_true,
      if_false, foldl_attachmentLines]
    rw [h2]

/-- Witness for C5 at a one-entry manifest and the identity converter. -/
theorem converter_appends_attachment_section_witness :
    convert_to_markdown id "<p>x</p>"
        [⟨"diagram.png", "attachments/diagram.png"⟩] =
      id "<p>x</p>" ++ "\n\n## Attachments\n\n"
        ++ attachmentLines [⟨"diagram.png", "attachments/diagram.png"⟩]
    ∧ convert_to_markdown id "<p>x</p>"
        [⟨"diagram.png", "attachments/diagram.png"⟩] =
      id "<p>x</p>" ++ "\n\n## Attachments\n\n"
        ++ "- [diagram.png](attachments/diagram.png)\n" :=
  converter_appends_attachment_section id "<p>x</p>"
    [⟨"diagram.png", "attachments/diagram.png"⟩] (by decide)

/-- C7: the markup conversion reachable from a downloader is a pure,
deterministic function of the converter configuration and its two inputs:
two downloaders whose converters agree — however different their remote
sessions and filesystems behave — produce byte-identical output on
identical body markup and identical manifest, so the conversion neither
consults the network nor the filesystem. -/
theorem converter_deterministic (env₁ env₂ : Env)
    (h : env₁.handle = env₂.handle) :
    ∀ (htmlContent : String) (attachments : List ManifestEntry),
      convertWithEnv env₁ htmlContent attachments =
        convertWithEnv env₂ htmlContent attachments := by
  intro htmlContent attachments
  simp [convertWithEnv, h]

/-- Witness for C7: `envA` and `envAltWorld` share only the converter;
network and filesystem behaviour differ completely. -/
theorem converter_deterministic_witness :
    convertWithEnv envA "<p>x</p>" [⟨"diagram.png", "attachments/diagram.png"⟩] =
      convertWithEnv envAltWorld "<p>x</p>"
        [⟨"diagram.png", "attachments/diagram.png"⟩] :=
  converter_deterministic envA envAltWorld rfl "<p>x</p>"
    [⟨"diagram.png", "attachments/diagram.png"⟩]

/-- Helper: the spec-worded retention equals the code's character filter. -/
theorem retainAllowedSpec_eq_filter :
    ∀ l : List Char, retainAllowedSpec l = l.filter allowedChar := by
  intro l
  induction l with
  | nil => rfl
  | cons c cs ih =>
    simp only [retainAllowedSpec, List.filter_cons, allowedChar, ih]

/-- Helper: the spec-worded trailing trim equals the code's
reverse/dropWhile/reverse `rstrip`. -/
theorem trimTrailingWsSpec_eq (l : List Char) :
    trimTrailingWsSpec l = (l.reverse.dropWhile Char.isWhitespace).reverse := by
  induction l with
  | nil => rfl
  | cons c cs ih =>
    rw [trimTrailingWsSpec, List.reverse_cons, List.dropWhile_append]
    by_cases hr : cs.reverse.dropWhile Char.isWhitespace = []
    · by_cases hc : Char.isWhitespace c
      · simp [ih, hr, hc, List.dropWhile]
      · simp [ih, hr, hc, List.dropWhile]
    · have hne : trimTrailingWsSpec cs ≠ [] := by
        rw [ih]
        simpa using hr
      simp [ih, hr, hne]

/-- C6: the sanitized title is exactly "retain only alphanumeric, space,
hyphen, underscore; then trim trailing whitespace" (the spec-worded
`sanitizeSpec`); the title "Q1/Q2 Report: Draft!" sanitizes to
"Q1Q2 Report Draft"; and every document file a page produces is written to
`<spaceDir>/<sanitizedTitle>.md`. -/
theorem title_sanitization :
    (∀ t : String, safe_title t = sanitizeSpec t)
    ∧ safe_title "Q1/Q2 Report: Draft!" = "Q1Q2 Report Draft"
    ∧ (∀ (env : Env) (spaceDir : String) (p : PageSummary)
        (path content : String),
        (path, content) ∈ (processPage env spaceDir p).docs →
        path = spaceDir ++ "/" ++ safe_title p.title ++ ".md") := by
  refine ⟨?_, by decide, ?_⟩
  · intro t
    rw [safe_title, sanitizeSpec, pyRstrip, retainAllowedSpec_eq_filter,
      trimTrailingWsSpec_eq]
  · intro env spaceDir p path content h
    rw [processPage] at h
    split at h
    · simp at h
    · dsimp only at h
      split at h
      · simp only [List.mem_singleton, Prod.mk.injEq] at h
        exact h.1
      · simp at h

/-- Witness for C6: in `envA`, the page titled "A" produces its document
at `out/SP/A.md`. -/
theorem title_sanitization_witness :
    "out/SP/A.md" = "out/SP" ++ "/" ++ safe_title "A" ++ ".md" :=
  title_sanitization.2.2 envA "out/SP" ⟨"1", "A"⟩ "out/SP/A.md"
    "# A\n\nb" (by decide)

/-- Helper: closed form of a `download_space` run whose page listing
succeeds with a non-empty page list: per-page results are computed
independently page by page and concatenated, and the log ends with the
fixed completion message. -/
theorem download_space_run (env : Env) (sk out : String) (fuel : Nat)
    (pages : List PageSummary) (reqs : List Nat) (elog : List String)
    (hlist : get_all_pages_in_space env.listPagesApi sk fuel =
      some (pages, reqs, elog))
    (hne : pages ≠ []) :
    download_space env sk out fuel =
      some ⟨((pages.map (processPage env (out ++ "/" ++ sk))).map
              PageResult.docs).flatten,
            ((pages.map (processPage env (out ++ "/" ++ sk))).map
              PageResult.attWritten).flatten,
            ["Fetching pages from space " ++ sk ++ "..."] ++ elog
              ++ ["Found " ++ toString pages.length
                    ++ " pages. Starting download..."]
              ++ ((pages.map (processPage env (out ++ "/" ++ sk))).map
                    PageResult.log).flatten
              ++ ["\nDownload completed! Content saved to: "
                    ++ (out ++ "/" ++ sk)]⟩ := by
  unfold download_space
  rw [hlist]
  simp [hne]

/-- C2 (counterexample to the claim as stated): in `envB`, page 2 of 3
(title B) fails at body fetch; pages A and C still produce their documents,
page B produces none, and the error is logged naming B — but the final
report line is exactly the same fixed completion string as in the fully
successful `envA` run, so the final report does not include the counts of
succeeded and failed pages. -/
theorem final_report_lacks_counts :
    download_space envB "SP" "out" 1 =
      some ⟨[("out/SP/A.md", "# A\n\nb"), ("out/SP/C.md", "# C\n\nb")], [],
        ["Fetching pages from space SP...",
         "Found 3 pages. Starting download...",
         "Error downloading page B: boom",
         "\nDownload completed! Content saved to: out/SP"]⟩
    ∧ download_space envA "SP" "out" 1 =
      some ⟨[("out/SP/A.md", "# A\n\nb"), ("out/SP/B.md", "# B\n\nb"),
             ("out/SP/C.md", "# C\n\nb")], [],
        ["Fetching pages from space SP...",
         "Found 3 pages. Starting download...",
         "\nDownload completed! Content saved to: out/SP"]⟩ := by
  constructor <;> decide

/-- C2 (amended): any error raised while processing one page — at body
fetch, conversion, or document write — is caught by the per-page handler
and logged with the page's title, no document file is written for that
page, and the loop continues so every other page still produces its
document (attachment materialization errors are absorbed one level deeper,
at per-attachment granularity, are logged, and leave the page's document
produced); the run ends with the fixed completion report naming the output
location, which carries no success/failure counts.  Formally: a page
yielding no document always has a logged error naming its title (the
cause-agnostic per-page catch), the body-fetch and document-write cases
are stated explicitly, a page whose body fetch and document write succeed
keeps its document whatever its attachment downloads did, and every
per-page message (including per-attachment errors) reaches the run log. -/
theorem per_page_failure_isolation (env : Env) (sk out : String)
    (fuel : Nat) (pages : List PageSummary) (reqs : List Nat)
    (elog : List String)
    (hlist : get_all_pages_in_space env.listPagesApi sk fuel =
      some (pages, reqs, elog))
    (hne : pages ≠ []) :
    ∃ r, download_space env sk out fuel = some r
      ∧ (∀ p ∈ pages, (processPage env (out ++ "/" ++ sk) p).docs = [] →
          ∃ e, ("Error downloading page " ++ p.title ++ ": " ++ e) ∈ r.log)
      ∧ (∀ p ∈ pages, ∀ e, env.getBody p.id = .error e →
          (processPage env (out ++ "/" ++ sk) p).docs = []
          ∧ ("Error downloading page " ++ p.title ++ ": " ++ e) ∈ r.log)
      ∧ (∀ p ∈ pages, ∀ body e, env.getBody p.id = .ok body →
          env.writeDoc (pageDocPath (out ++ "/" ++ sk) p)
            (pageDocContent env (out ++ "/" ++ sk) p body) = .error e →
          (processPage env (out ++ "/" ++ sk) p).docs = []
          ∧ ("Error downloading page " ++ p.title ++ ": " ++ e) ∈ r.log)
      ∧ (∀ p ∈ pages, ∀ body u, env.getBody p.id = .ok body →
          env.writeDoc (pageDocPath (out ++ "/" ++ sk) p)
            (pageDocContent env (out ++ "/" ++ sk) p body) = .ok u →
          (pageDocPath (out ++ "/" ++ sk) p,
            pageDocContent env (out ++ "/" ++ sk) p body) ∈ r.written)
      ∧ (∀ p ∈ pages, ∀ d ∈ (processPage env (out ++ "/" ++ sk) p).docs,
          d ∈ r.written)
      ∧ (∀ p ∈ pages, ∀ m ∈ (processPage env (out ++ "/" ++ sk) p).log,
          m ∈ r.log)
      ∧ r.written =
          ((pages.map (processPage env (out ++ "/" ++ sk))).map
            PageResult.docs).flatten
      ∧ r.log.getLast? =
          some ("\nDownload completed! Content saved to: "
            ++ (out ++ "/" ++ sk)) := by
  have hliftlog : ∀ p ∈ pages,
      ∀ m ∈ (processPage env (out ++ "/" ++ sk) p).log,
      m ∈ ["Fetching pages from space " ++ sk ++ "..."] ++ elog
        ++ ["Found " ++ toString pages.length
              ++ " pages. Starting download..."]
        ++ ((pages.map (processPage env (out ++ "/" ++ sk))).map
              PageResult.log).flatten
        ++ ["\nDownload completed! Content saved to: "
              ++ (out ++ "/" ++ sk)] := by
    intro p hp m hm
    simp only [List.mem_append, List.mem_flatten, List.mem_map]
    exact Or.inl (Or.inr ⟨(processPage env (out ++ "/" ++ sk) p).log,
      ⟨processPage env (out ++ "/" ++ sk) p, ⟨p, hp, rfl⟩, rfl⟩, hm⟩)
  have hliftdocs : ∀ p ∈ pages,
      ∀ d ∈ (processPage env (out ++ "/" ++ sk) p).docs,
      d ∈ ((pages.map (processPage env (out ++ "/" ++ sk))).map
            PageResult.docs).flatten := by
    intro p hp d hd
    simp only [List.mem_flatten, List.mem_map]
    exact ⟨(processPage env (out ++ "/" ++ sk) p).docs,
      ⟨processPage env (out ++ "/" ++ sk) p, ⟨p, hp, rfl⟩, rfl⟩, hd⟩
  refine ⟨_, download_space_run env sk out fuel pages reqs elog hlist hne,
    ?_, ?_, ?_, ?_, hliftdocs, hliftlog, rfl, ?_⟩
  · intro p hp hdocs
    cases hb : env.getBody p.id with
    | error e =>
      refine ⟨e, hliftlog p hp _ ?_⟩
      simp [processPage, hb]
    | ok body =>
      cases hw : env.writeDoc (pageDocPath (out ++ "/" ++ sk) p)
          (pageDocContent env (out ++ "/" ++ sk) p body) with
      | ok u =>
        simp only [pageDocPath, pageDocContent] at hw
        rw [processPage, hb] at hdocs
        dsimp only at hdocs
        rw [hw] at hdocs
        simp at hdocs
      | error e =>
        refine ⟨e, hliftlog p hp _ ?_⟩
        simp only [pageDocPath, pageDocContent] at hw
        simp [processPage, hb, hw]
  · intro p hp e he
    refine ⟨by simp [processPage, he], ?_⟩
    exact hliftlog p hp _ (by simp [processPage, he])
  · intro p hp body e hb hw
    simp only [pageDocPath, pageDocContent] at hw
    refine ⟨by simp [processPage, hb, hw], ?_⟩
    exact hliftlog p hp _ (by simp [processPage, hb, hw])
  · intro p hp body u hb hw
    have hw2 := hw
    simp only [pageDocPath, pageDocContent] at hw2
    refine hliftdocs p hp _ ?_
    simp [processPage, hb, hw2, pageDocPath, pageDocContent]
  · rw [List.getLast?_append]
    simp

/-- Witness for C2 (amended) at the concrete run `envC`, where the document
write of page B fails: pages A and C keep their documents, B yields none
and the error naming B is logged, and the run ends with the fixed
completion message. -/
theorem per_page_failure_isolation_witness :
    download_space envC "SP" "out" 1 =
      some ⟨[("out/SP/A.md", "# A\n\nb"), ("out/SP/C.md", "# C\n\nb")], [],
        ["Fetching pages from space SP...",
         "Found 3 pages. Starting download...",
         "Error downloading page B: disk full",
         "\nDownload completed! Content saved to: out/SP"]⟩
    ∧ (∃ r, download_space envC "SP" "out" 1 = some r
      ∧ (∀ p ∈ pages3, (processPage envC ("out" ++ "/" ++ "SP") p).docs = [] →
          ∃ e, ("Error downloading page " ++ p.title ++ ": " ++ e) ∈ r.log)
      ∧ (∀ p ∈ pages3, ∀ e, envC.getBody p.id = .error e →
          (processPage envC ("out" ++ "/" ++ "SP") p).docs = []
          ∧ ("Error downloading page " ++ p.title ++ ": " ++ e) ∈ r.log)
      ∧ (∀ p ∈ pages3, ∀ body e, envC.getBody p.id = .ok body →
          envC.writeDoc (pageDocPath ("out" ++ "/" ++ "SP") p)
            (pageDocContent envC ("out" ++ "/" ++ "SP") p body) = .error e →
          (processPage envC ("out" ++ "/" ++ "SP") p).docs = []
          ∧ ("Error downloading page " ++ p.title ++ ": " ++ e) ∈ r.log)
      ∧ (∀ p ∈ pages3, ∀ body u, envC.getBody p.id = .ok body →
          envC.writeDoc (pageDocPath ("out" ++ "/" ++ "SP") p)
            (pageDocContent envC ("out" ++ "/" ++ "SP") p body) = .ok u →
          (pageDocPath ("out" ++ "/" ++ "SP") p,
            pageDocContent envC ("out" ++ "/" ++ "SP") p body) ∈ r.written)
      ∧ (∀ p ∈ pages3, ∀ d ∈ (processPage envC ("out" ++ "/" ++ "SP") p).docs,
          d ∈ r.written)
      ∧ (∀ p ∈ pages3, ∀ m ∈ (processPage envC ("out" ++ "/" ++ "SP") p).log,
          m ∈ r.log)
      ∧ r.written =
          ((pages3.map (processPage envC ("out" ++ "/" ++ "SP"))).map
            PageResult.docs).flatten
      ∧ r.log.getLast? =
          some ("\nDownload completed! Content saved to: "
            ++ ("out" ++ "/" ++ "SP"))) :=
  ⟨by decide,
   per_page_failure_isolation envC "SP" "out" 1 pages3 [0] []
     (by decide) (by decide)⟩

/-- C4 (counterexample to the claim as stated): when the first listing
request raises, `get_all_pages_in_space` does not fail — it returns the
normal empty list, the very same pages value as for a genuinely empty
workspace — and the run then reports "No pages found", exactly as for an
empty workspace (the error is printed, but the return value is an ordinary
empty result). -/
theorem listing_failure_counterexample :
    get_all_pages_in_space envFail.listPagesApi "SP" 1 =
      some ([], [0], ["Error getting pages from space SP: conn refused"])
    ∧ get_all_pages_in_space envEmpty.listPagesApi "SP" 1 =
      some ([], [0], [])
    ∧ download_space envFail "SP" "out" 1 =
      some ⟨[], [],
        ["Fetching pages from space SP...",
         "Error getting pages from space SP: conn refused",
         "No pages found in space SP"]⟩ := by
  refine ⟨by decide, by decide, by decide⟩

/-- C4 (amended): if the initial page-listing request fails with a request
error, the error is caught and printed (surfaced for reporting, not
swallowed), the listing operation returns a normal empty list rather than
failing, and the run aborts before any page-level work, writing nothing and
reporting "No pages found". -/
theorem listing_failure_aborts_run (env : Env) (sk out : String)
    (fuel : Nat) (e : String)
    (herr : env.listPagesApi 0 100 = .error e) (hfuel : 0 < fuel) :
    get_all_pages_in_space env.listPagesApi sk fuel =
      some ([], [0], ["Error getting pages from space " ++ sk ++ ": " ++ e])
    ∧ download_space env sk out fuel =
      some ⟨[], [],
        ["Fetching pages from space " ++ sk ++ "...",
         "Error getting pages from space " ++ sk ++ ": " ++ e,
         "No pages found in space " ++ sk]⟩ := by
  obtain ⟨n, rfl⟩ : ∃ n, fuel = n + 1 := ⟨fuel - 1, by omega⟩
  have h1 : get_all_pages_in_space env.listPagesApi sk (n + 1) =
      some ([], [0],
        ["Error getting pages from space " ++ sk ++ ": " ++ e]) := by
    unfold get_all_pages_in_space
    rw [pagesLoop, herr]
    rfl
  refine ⟨h1, ?_⟩
  unfold download_space
  rw [h1]
  rfl

/-- Witness for C4 (amended) at the concrete failing listing `envFail`. -/
theorem listing_failure_aborts_run_witness :
    get_all_pages_in_space envFail.listPagesApi "SP" 1 =
      some ([], [0],
        ["Error getting pages from space " ++ "SP" ++ ": " ++ "conn refused"])
    ∧ download_space envFail "SP" "out" 1 =
      some ⟨[], [],
        ["Fetching pages from space " ++ "SP" ++ "...",
         "Error getting pages from space " ++ "SP" ++ ": " ++ "conn refused",
         "No pages found in space " ++ "SP"]⟩ :=
  listing_failure_aborts_run envFail "SP" "out" 1 "conn refused" rfl
    (by decide)

/-- C8: a workspace whose listing returns the empty sequence yields zero
documents and zero attachment files, reports "No pages found", and the run
terminates normally — a valid, non-error outcome. -/
theorem empty_workspace_success (env : Env) (sk out : String) (fuel : Nat)
    (hempty : env.listPagesApi 0 100 = .ok []) (hfuel : 0 < fuel) :
    download_space env sk out fuel =
      some ⟨[], [],
        ["Fetching pages from space " ++ sk ++ "...",
         "No pages found in space " ++ sk]⟩ := by
  obtain ⟨n, rfl⟩ : ∃ n, fuel = n + 1 := ⟨fuel - 1, by omega⟩
  have h1 : get_all_pages_in_space env.listPagesApi sk (n + 1) =
      some ([], [0], []) := by
    unfold get_all_pages_in_space
    rw [pagesLoop, hempty]
    rfl
  unfold download_space
  rw [h1]
  rfl

/-- Witness for C8 at the concrete empty workspace `envEmpty`. -/
theorem empty_workspace_success_witness :
    download_space envEmpty "SP" "out" 1 =
      some ⟨[], [],
        ["Fetching pages from space " ++ "SP" ++ "...",
         "No pages found in space " ++ "SP"]⟩ :=
  empty_workspace_success envEmpty "SP" "out" 1 rfl (by decide)

/-- C9 (counterexample to the claim as stated): in `envDup` two different
pages each carry an attachment named "logo.png" with different bytes; both
are written to the single path `out/SP/attachments/logo.png` (the second
write overwriting the first), and both pages' documents link to that same
path — the attachment file on disk is shared across two different pages. -/
theorem attachment_sharing_counterexample :
    download_space envDup "SP" "out" 1 =
      some ⟨[("out/SP/A.md",
              "# A\n\nb\n\n## Attachments\n\n- [logo.png](attachments/logo.png)\n"),
             ("out/SP/B.md",
              "# B\n\nb\n\n## Attachments\n\n- [logo.png](attachments/logo.png)\n")],
            [("out/SP/attachments/logo.png", [1]),
             ("out/SP/attachments/logo.png", [2, 2])],
            ["Fetching pages from space SP...",
             "Found 2 pages. Starting download...",
             "\nDownload completed! Content saved to: out/SP"]⟩ := by
  decide

/-- Helper: every attachment file a page writes lands under the
`attachments` subdirectory of the page's output directory. -/
theorem processPage_attWritten_shape (env : Env) (spaceDir : String)
    (p : PageSummary) :
    ∀ pr ∈ (processPage env spaceDir p).attWritten,
      ∃ fname bytes, pr = (spaceDir ++ "/attachments" ++ "/" ++ fname, bytes) := by
  intro pr hpr
  rw [processPage] at hpr
  split at hpr
  · simp at hpr
  · dsimp only at hpr
    have hw : pr ∈ (download_attachments (env.listAtts p.id)
        (env.fetchAtt p.id) p.id spaceDir).written := by
      split at hpr
      · exact hpr
      · exact hpr
    rw [download_attachments.eq_def] at hw
    split at hw
    · simp at hw
    · split at hw
      · simp at hw
      · rw [attachmentLoop_spec] at hw
        simp only [List.mem_filterMap] at hw
        obtain ⟨a, _, hfa⟩ := hw
        cases hfe : env.fetchAtt p.id a with
        | ok b =>
          rw [hfe] at hfa
          simp only [Option.some.injEq] at hfa
          exact ⟨a.title, b, hfa.symm⟩
        | error e =>
          rw [hfe] at hfa
          simp at hfa

/-- C9 (amended): every attachment file written during a run lands in the
single workspace-level `attachments` directory `out/sk/attachments` shared
flatly by all pages (this is the attachments subdirectory of the directory
where every page's document lives); each successfully downloaded attachment
produces its own write of its own bytes — there is no content-based
deduplication — but same-named attachments of different pages target the
same single path. -/
theorem attachment_layout (env : Env) (sk out : String) (fuel : Nat)
    (pages : List PageSummary) (reqs : List Nat) (elog : List String)
    (hlist : get_all_pages_in_space env.listPagesApi sk fuel =
      some (pages, reqs, elog))
    (hne : pages ≠ []) :
    ∃ r, download_space env sk out fuel = some r
      ∧ (∀ pr ∈ r.attWritten, ∃ fname bytes,
          pr = (out ++ "/" ++ sk ++ "/attachments" ++ "/" ++ fname, bytes))
      ∧ r.attWritten =
          ((pages.map (processPage env (out ++ "/" ++ sk))).map
            PageResult.attWritten).flatten
      ∧ (∀ p ∈ pages, ∀ body atts, env.getBody p.id = .ok body →
          env.listAtts p.id = .ok atts →
          (processPage env (out ++ "/" ++ sk) p).attWritten =
            atts.filterMap (fun a =>
              match env.fetchAtt p.id a with
              | .ok b =>
                  some (out ++ "/" ++ sk ++ "/attachments" ++ "/" ++ a.title, b)
              | .error _ => none)) := by
  refine ⟨_, download_space_run env sk out fuel pages reqs elog hlist hne,
    ?_, rfl, ?_⟩
  · intro pr hpr
    simp only [List.mem_flatten, List.mem_map] at hpr
    obtain ⟨l, ⟨res, ⟨p, hp, rfl⟩, rfl⟩, hprl⟩ := hpr
    exact processPage_attWritten_shape env (out ++ "/" ++ sk) p pr hprl
  · intro p hp body atts hb ha
    have hpw : (processPage env (out ++ "/" ++ sk) p).attWritten =
        (download_attachments (env.listAtts p.id) (env.fetchAtt p.id) p.id
          (out ++ "/" ++ sk)).written := by
      rw [processPage, hb]
      dsimp only
      split
      · rfl
      · rfl
    rw [hpw, ha]
    by_cases hatts : atts = []
    · subst hatts
      simp [download_attachments]
    · simp only [download_attachments, if_neg hatts, attachmentLoop_spec]

/-- Witness for C9 (amended) at the concrete duplicate-filename run
`envDup`. -/
theorem attachment_layout_witness :
    ∃ r, download_space envDup "SP" "out" 1 = some r
      ∧ (∀ pr ∈ r.attWritten, ∃ fname bytes,
          pr = ("out" ++ "/" ++ "SP" ++ "/attachments" ++ "/" ++ fname, bytes))
      ∧ r.attWritten =
          ((pages2.map (processPage envDup ("out" ++ "/" ++ "SP"))).map
            PageResult.attWritten).flatten
      ∧ (∀ p ∈ pages2, ∀ body atts, envDup.getBody p.id = .ok body →
          envDup.listAtts p.id = .ok atts →
          (processPage envDup ("out" ++ "/" ++ "SP") p).attWritten =
            atts.filterMap (fun a =>
              match envDup.fetchAtt p.id a with
              | .ok b =>
                  some ("out" ++ "/" ++ "SP" ++ "/attachments" ++ "/"
                    ++ a.title, b)
              | .error _ => none)) :=
  attachment_layout envDup "SP" "out" 1 pages2 [0] [] (by decide) (by decide)
